import Mathlib

set_option maxRecDepth 8000

/-!
Verification of the procedural world-generation subsystem of the voxel-game
repository, against the claims of its natural-language specification.

The development shallowly embeds `src/world/World.cpp`:

* the generation worker `world_generation_fn` and the per-frame drain in
  `World::render` / `World::generateChunkMesh` become a small-step
  transition system over the shared state (chunk registry, hand-off
  queue, worker program counter);
* the pure sampling functions `getBiomeNoise`, `getChunkHeight`,
  `getNormalVector` and the array construction in `World::generateChunk`
  become pure functions over `ℚ` (idealizing IEEE floats), parametrized by
  an abstract noise function, since `SimplexNoise.h` is not among the
  provided sources;
* `World::startWorldGeneration` and `World::~World` become functions on a
  record of the `World` fields they touch.

C++ `int` division truncates toward zero, which is `Int.tdiv` here, and a
C `(int)` cast of a float value is truncation toward zero as well.
-/

namespace VoxelGame

/-- A chunk coordinate: the pair `(x, z)` stored in `chunk_t`. -/
abbrev Coord := Int × Int

/-- Modelled from the spec: the configuration constants declared in the
repository's `World.h` header, which is not among the provided source files:
`CHUNK_SIZE`, the chunk-count ceiling, `CHUNK_BIOME_COUNT`,
`BIOME_HEIGHT_SCALING_FACTORS`, `CHUNK_GENERATION_OCTAVES` (wavelength and
amplitude pairs), `CHUNK_GENERATION_MAX_HEIGHT` and
`CHUNK_GENERATION_NORMAL_DELTA`.  The spec, section 6, lists them as
configuration constants; `World.cpp` itself hardcodes the generation radius
to 10 and the chunk ceiling to 1000. -/
structure Config where
  chunkSize : Nat
  radius : Nat
  ceiling : Nat
  biomeCount : Nat
  biomeFactors : List ℚ
  octaves : List (ℚ × ℚ)
  maxHeight : ℚ
  delta : ℚ

/-- The chunk-aligned axis value computed in `world_generation_fn`
(`World.cpp` lines 32-33): `((int32_t) position.x / CHUNK_SIZE) * CHUNK_SIZE`,
where C++ integer division truncates toward zero. -/
def alignAxis (p cs : Int) : Int := p.tdiv cs * cs

/-- One pass of coordinates issued by the double loop of
`world_generation_fn` (`World.cpp` lines 35-43): the outer loop runs over
the x offset from `-radius` to `radius - 1`, the inner loop over the z
offset in the same half-open range, and each iteration requests the chunk
at `(px + x*CHUNK_SIZE, pz + z*CHUNK_SIZE)`. -/
def passCoords (cfg : Config) (px pz : Int) : List Coord :=
  (List.range (2 * cfg.radius)).flatMap (fun i =>
    (List.range (2 * cfg.radius)).map (fun j =>
      (px + ((i : Int) - (cfg.radius : Int)) * (cfg.chunkSize : Int),
       pz + ((j : Int) - (cfg.radius : Int)) * (cfg.chunkSize : Int))))

/-- Program counter of the generation worker inside its `while (true)` loop. -/
inductive WorkerPC where
  | atLoopTop : WorkerPC
  | inPass (rest : List Coord) : WorkerPC
  | stopped : WorkerPC
deriving DecidableEq

/-- The state shared between the worker loop and the frame tick:
`World::chunks` (the registry, coordinates in insertion order — duplicates
are possible because `generateChunkMesh` pushes unconditionally),
`World::chunkMeshGenerationQueue` (payload coordinates in FIFO order),
and the worker's position in its loop. -/
structure WState where
  registry : List Coord
  queue : List Coord
  worker : WorkerPC
deriving DecidableEq

/-- The atomic actions of the two execution contexts whose interleavings
make up a run. -/
inductive Act where
  | passStart : Act
  | buildNext : Act
  | passEnd : Act
  | drain : Act
deriving DecidableEq

/-- The initial state of one run: empty registry, empty queue, worker at the
top of its loop. -/
def initState : WState := ⟨[], [], .atLoopTop⟩

/-- Small-step interpreter of the system for a fixed observation point
`obs = ((int32_t) position.x, (int32_t) position.z)`.

`passStart` models `World.cpp` lines 30-34: at the top of the loop the
worker returns permanently when `chunks.size() > 1000` (strictly more than
the ceiling), otherwise it recomputes the aligned center and enters the
double loop.  `buildNext` models one `World::generateChunk` call
(lines 160-245): the call returns at once when a chunk with the same
coordinate is already in `World::chunks`, otherwise it performs the full
build and pushes the payload onto the queue.  `passEnd` closes the double
loop.  `drain` models the per-frame consumption in `World::render`
(lines 77-81), which pops at most one payload per frame and hands it to
`World::generateChunkMesh`, whose `chunks.push_back` (line 140) appends
unconditionally; a frame with an empty queue changes nothing. -/
def runAct (cfg : Config) (obs : Coord) : Act → WState → Option WState
  | .passStart, s =>
    match s.worker with
    | .atLoopTop =>
      let pass := passCoords cfg (alignAxis obs.1 (cfg.chunkSize : Int))
        (alignAxis obs.2 (cfg.chunkSize : Int))
      if cfg.ceiling < s.registry.length then some { s with worker := .stopped }
      else some { s with worker := .inPass pass }
    | _ => none
  | .buildNext, s =>
    match s.worker with
    | .inPass (c :: rest) =>
      if c ∈ s.registry then some { s with worker := .inPass rest }
      else some { s with queue := s.queue ++ [c], worker := .inPass rest }
    | _ => none
  | .passEnd, s =>
    match s.worker with
    | .inPass [] => some { s with worker := .atLoopTop }
    | _ => none
  | .drain, s =>
    match s.queue with
    | [] => some s
    | c :: rest => some { s with registry := s.registry ++ [c], queue := rest }

/-- Run a whole list of actions, failing when one is not enabled. -/
def runActs (cfg : Config) (obs : Coord) : List Act → WState → Option WState
  | [], s => some s
  | a :: rest, s => (runAct cfg obs a s).bind (runActs cfg obs rest)

/-- One interleaving step: some enabled action leads from `s` to `v`. -/
def Step (cfg : Config) (obs : Coord) (s v : WState) : Prop :=
  ∃ a, runAct cfg obs a s = some v

/-- Reachability along interleavings of worker iterations and frame ticks. -/
def Reachable (cfg : Config) (obs : Coord) : WState → WState → Prop :=
  Relation.ReflTransGen (Step cfg obs)

/-- Sequential composition of one `World::generateChunk` call followed by
the drain of its payload, if any: when the coordinate is already in the
registry the call returns at once (`World.cpp` lines 162-166), otherwise
the built payload is drained and the chunk appended (line 140). -/
def generateChunkDrained (reg : List Coord) (c : Coord) : List Coord :=
  if c ∈ reg then reg else reg ++ [c]

/-- Generate a whole list of coordinates under the immediate-drain
interleaving: every payload is consumed before the next build request. -/
def buildAllDrained (reg : List Coord) (l : List Coord) : List Coord :=
  l.foldl generateChunkDrained reg

/-- Truncation toward zero, the effect of a C `(int)` cast on a
non-integral value. -/
def cTrunc (q : ℚ) : Int := if 0 ≤ q then ⌊q⌋ else ⌈q⌉

/-- `getBiomeNoise` (`World.cpp` lines 88-91): maps a simplex noise sample
at wavelength 100 from `[-1, 1]` into `[0, 1]`.  The noise function itself
is defined in `SimplexNoise.h`, which is outside the provided sources, so
it stays an abstract parameter. -/
def getBiomeNoise (noise : ℚ → ℚ → ℚ) (x z : ℚ) : ℚ :=
  (noise (x / 100) (z / 100) + 1) / 2

/-- The index into `BIOME_HEIGHT_SCALING_FACTORS` computed at `World.cpp`
line 101: `(int) (biome_noise * CHUNK_BIOME_COUNT)`. -/
def biomeIndex (cfg : Config) (noise : ℚ → ℚ → ℚ) (x z : ℚ) : Int :=
  cTrunc (getBiomeNoise noise x z * (cfg.biomeCount : ℚ))

/-- `getChunkHeight` (`World.cpp` lines 96-110): divides both inputs by 10,
samples the biome noise there, scales the selected biome band factor by the
biome noise value itself (line 102), accumulates the octave samples, scales
the sum by the maximum height and returns the product.  The out-of-bounds
table read that the source performs when the index reaches the table length
is undefined behaviour in C++; the model totalizes it with `List.getD` and
default `0`, and the index claims never rely on the totalized value. -/
def getChunkHeight (cfg : Config) (noise : ℚ → ℚ → ℚ) (x z : ℚ) : ℚ :=
  let x' := x / 10
  let z' := z / 10
  let biomeNoiseV := getBiomeNoise noise x' z'
  let biomeHeightFactor :=
    cfg.biomeFactors.getD (cTrunc (biomeNoiseV * (cfg.biomeCount : ℚ))).toNat 0 * biomeNoiseV
  let resultingHeight :=
    cfg.octaves.foldl (fun acc o => acc + noise (x' / o.1) (z' / o.1) * o.2) 0
  biomeHeightFactor * (resultingHeight * cfg.maxHeight)

/-- Stated from the claim's words, for comparison with `getChunkHeight`:
the octave sum scaled by the selected per-band height-scaling constant and
by the global maximum-height constant — and by nothing else. -/
def claimHeightC5 (cfg : Config) (noise : ℚ → ℚ → ℚ) (x z : ℚ) : ℚ :=
  cfg.biomeFactors.getD (cTrunc (getBiomeNoise noise (x / 10) (z / 10) * (cfg.biomeCount : ℚ))).toNat 0 *
    ((cfg.octaves.map (fun o => noise (x / 10 / o.1) (z / 10 / o.1) * o.2)).sum * cfg.maxHeight)

/-- The three components assembled by `getNormalVector` (`World.cpp`
lines 117-126) before normalization: symmetric finite differences of
`getChunkHeight` on each axis around the sample point, with middle
component `2 * CHUNK_GENERATION_NORMAL_DELTA`. -/
def normalRaw (cfg : Config) (noise : ℚ → ℚ → ℚ) (x z : ℚ) : ℚ × ℚ × ℚ :=
  (getChunkHeight cfg noise (x - cfg.delta) z - getChunkHeight cfg noise (x + cfg.delta) z,
   2 * cfg.delta,
   getChunkHeight cfg noise x (z - cfg.delta) - getChunkHeight cfg noise x (z + cfg.delta))

/-- Euclidean norm of a real 3-vector. -/
noncomputable def vecNorm (w : ℝ × ℝ × ℝ) : ℝ :=
  Real.sqrt (w.1 ^ 2 + w.2.1 ^ 2 + w.2.2 ^ 2)

/-- Cast a rational 3-vector to the reals. -/
def toRealVec (v : ℚ × ℚ × ℚ) : ℝ × ℝ × ℝ :=
  ((v.1 : ℝ), (v.2.1 : ℝ), (v.2.2 : ℝ))

/-- The glm `normalize` applied to a rational 3-vector, idealized over `ℝ`. -/
noncomputable def normalize3 (v : ℚ × ℚ × ℚ) : ℝ × ℝ × ℝ :=
  ((toRealVec v).1 / vecNorm (toRealVec v),
   (toRealVec v).2.1 / vecNorm (toRealVec v),
   (toRealVec v).2.2 / vecNorm (toRealVec v))

/-- `getNormalVector` (`World.cpp` lines 117-126). -/
noncomputable def getNormalVector (cfg : Config) (noise : ℚ → ℚ → ℚ) (x z : ℚ) : ℝ × ℝ × ℝ :=
  normalize3 (normalRaw cfg noise x z)

/-- The six indices pushed for grid cell `(i, j)` in `World::generateChunk`
(`World.cpp` lines 212-223), with row width `mesh_width = CHUNK_SIZE + 1`:
top-left, top-right, bottom-left, then top-right, bottom-right,
bottom-left. -/
def cellIndices (cs i j : Nat) : List Nat :=
  [i * (cs + 1) + j, i * (cs + 1) + (j + 1), (i + 1) * (cs + 1) + j,
   i * (cs + 1) + (j + 1), (i + 1) * (cs + 1) + (j + 1), (i + 1) * (cs + 1) + j]

/-- The height sample taken at grid point `(i, j)` of the chunk at `(x, z)`
(`World.cpp` lines 193-197): `getChunkHeight` at
`(x + i - 0.5, z + j - 0.5)`. -/
def hSample (cfg : Config) (noise : ℚ → ℚ → ℚ) (x z : Int) (i j : Nat) : ℚ :=
  getChunkHeight cfg noise ((x : ℚ) + (i : ℚ) - 1/2) ((z : ℚ) + (j : ℚ) - 1/2)

/-- The core-grid height samples (`data_points`) and the triangle index
sequence built by the double loop of `World::generateChunk` (`World.cpp`
lines 189-226): `i` and `j` run from `0` to `CHUNK_SIZE` inclusive, and a
height sample plus six indices are appended exactly when `i < CHUNK_SIZE`
and `j < CHUNK_SIZE`. -/
def generateChunkArrays (cfg : Config) (noise : ℚ → ℚ → ℚ) (x z : Int) :
    List ℚ × List Nat :=
  (List.range (cfg.chunkSize + 1)).foldl (fun acc i =>
    (List.range (cfg.chunkSize + 1)).foldl (fun acc2 j =>
      if i < cfg.chunkSize ∧ j < cfg.chunkSize then
        (acc2.1 ++ [hSample cfg noise x z i j],
         acc2.2 ++ cellIndices cfg.chunkSize i j)
      else acc2) acc) ([], [])

/-- Stated from the spec's words, for comparison with the index sequence of
`generateChunkArrays`: cells of the core grid enumerated row-major, each
wound as two triangles, top-left/top-right/bottom-left then
top-right/bottom-right/bottom-left, under row-major vertex indexing of row
width `CHUNK_SIZE + 1`. -/
def specWindingIndices (cs : Nat) : List Nat :=
  (List.range cs).flatMap (fun i => (List.range cs).flatMap (fun j => cellIndices cs i j))

/-- The core-grid height sample list in loop order, for comparison with the
first component of `generateChunkArrays`. -/
def coreHeights (cfg : Config) (noise : ℚ → ℚ → ℚ) (x z : Int) : List ℚ :=
  (List.range cfg.chunkSize).flatMap (fun i =>
    (List.range cfg.chunkSize).map (fun j => hSample cfg noise x z i j))

/-- The `World` fields read or written by `World::startWorldGeneration` and
`World::~World`: whether `worldGenerationThread` is non-null, and the sizes
of `drawables`, `worldObjects`, `chunks` and `chunkMeshGenerationQueue`. -/
structure WorldFields where
  threadStarted : Bool
  drawablesLen : Nat
  worldObjectsLen : Nat
  chunksLen : Nat
  queueLen : Nat
deriving DecidableEq

/-- `World::startWorldGeneration` (`World.cpp` lines 47-59): returns with no
change when the thread pointer is already set; otherwise it replaces
`drawables` and `worldObjects` with fresh empty vectors and spawns the
generation thread.  The observation-point argument is only forwarded to the
thread; the state change performed here does not depend on it, in
particular a null observation point does not prevent it. -/
def startWorldGeneration (s : WorldFields) : WorldFields :=
  if s.threadStarted then s
  else { s with drawablesLen := 0, worldObjectsLen := 0, threadStarted := true }

/-- The entry checks of `world_generation_fn` (`World.cpp` lines 11-21),
before the generation loop: with a null observation point it prints a
diagnostic to `std::cerr` and returns; with more than 100 world objects it
returns silently; otherwise it proceeds into the loop.  The result is
(diagnostic printed, generation loop entered). -/
def worldGenerationEntry (hasObservationPoint : Bool) (worldObjectsLen : Nat) :
    Bool × Bool :=
  if hasObservationPoint = false then (true, false)
  else if 100 < worldObjectsLen then (false, false)
  else (false, true)

/-- What the destructor does with the worker thread. -/
inductive ThreadTeardown where
  | noThread : ThreadTeardown
  | detached : ThreadTeardown
  | joined : ThreadTeardown
deriving DecidableEq

/-- The observable effect of `World::~World`. -/
structure DtorEffect where
  freedQueuePayloads : Nat
  freedChunkResources : Nat
  teardown : ThreadTeardown
deriving DecidableEq

/-- `World::~World` (`World.cpp` lines 247-275): frees every queued payload
(indices, vertices, mesh data and chunk), frees every chunk's height map
and mesh, clears `drawables` and `worldObjects`, and then — if the
generation thread exists — calls `detach()` on it and deletes the thread
object.  No join happens, and no cooperative stop flag exists anywhere in
`world_generation_fn`. -/
def worldDtor (s : WorldFields) : DtorEffect :=
  { freedQueuePayloads := s.queueLen
  , freedChunkResources := s.chunksLen
  , teardown := if s.threadStarted then .detached else .noThread }

/-- Concrete configuration used for counterexample traces: the source's
`CHUNK_SIZE = 16` and chunk ceiling 1000, with generation radius 1 and the
scenario octave table of spec section 8 (single octave, wavelength 50,
amplitude 1, maximum height 10). -/
def cfgA : Config :=
  { chunkSize := 16, radius := 1, ceiling := 1000, biomeCount := 2
  , biomeFactors := [1, 2], octaves := [(50, 1)], maxHeight := 10, delta := 1 }

/-- The configuration of the spec's functional scenario for claim C3:
`CHUNK_SIZE = 16`, generation radius 1, chunk ceiling 9. -/
def cfgB : Config :=
  { chunkSize := 16, radius := 1, ceiling := 9, biomeCount := 2
  , biomeFactors := [1, 2], octaves := [(50, 1)], maxHeight := 10, delta := 1 }

/-! ### Generic facts about the transition system -/

/-- A successful run of an action list witnesses reachability. -/
theorem runActs_reachable (cfg : Config) (obs : Coord) :
    ∀ (l : List Act) (s v : WState),
      runActs cfg obs l s = some v → Reachable cfg obs s v := by
  intro l
  induction l with
  | nil =>
    intro s v h
    simp only [runActs] at h
    cases h
    exact Relation.ReflTransGen.refl
  | cons a rest ih =>
    intro s v h
    simp only [runActs, Option.bind_eq_some] at h
    obtain ⟨w, hw, hrest⟩ := h
    exact Relation.ReflTransGen.head ⟨a, hw⟩ (ih w v hrest)

/-- One `World::generateChunk` call followed by the drain of its payload is
exactly the sequential dedup-insert `generateChunkDrained`. -/
theorem buildNext_then_drain (cfg : Config) (obs : Coord) (reg : List Coord)
    (c : Coord) (rest : List Coord) :
    runActs cfg obs [.buildNext, .drain] ⟨reg, [], .inPass (c :: rest)⟩
      = some ⟨generateChunkDrained reg c, [], .inPass rest⟩ := by
  by_cases hc : c ∈ reg
  · simp [runActs, runAct, generateChunkDrained, hc]
  · simp [runActs, runAct, generateChunkDrained, hc]

/-- While the registry stays empty, the worker walks its pass list building
every coordinate, appending each one to the queue. -/
theorem walkPass_reachable (cfg : Config) (obs : Coord) :
    ∀ (rest q : List Coord),
      Reachable cfg obs ⟨[], q, .inPass rest⟩ ⟨[], q ++ rest, .inPass []⟩ := by
  intro rest
  induction rest with
  | nil =>
    intro q
    rw [List.append_nil]
    exact Relation.ReflTransGen.refl
  | cons c rest ih =>
    intro q
    have hstep : Step cfg obs ⟨[], q, .inPass (c :: rest)⟩ ⟨[], q ++ [c], .inPass rest⟩ :=
      ⟨.buildNext, by simp [runAct]⟩
    have h2 := ih (q ++ [c])
    rw [show q ++ (c :: rest) = (q ++ [c]) ++ rest by simp]
    exact Relation.ReflTransGen.head hstep h2

/-- A full worker pass from an empty registry appends the whole coordinate
pass to the queue and returns to the top of the loop. -/
theorem onePass_reachable (cfg : Config) (obs : Coord) (q : List Coord) :
    Reachable cfg obs ⟨[], q, .atLoopTop⟩
      ⟨[], q ++ passCoords cfg (alignAxis obs.1 (cfg.chunkSize : Int))
                              (alignAxis obs.2 (cfg.chunkSize : Int)), .atLoopTop⟩ := by
  have h1 : Step cfg obs ⟨[], q, .atLoopTop⟩
      ⟨[], q, .inPass (passCoords cfg (alignAxis obs.1 (cfg.chunkSize : Int))
                                      (alignAxis obs.2 (cfg.chunkSize : Int)))⟩ :=
    ⟨.passStart, by simp [runAct]⟩
  have h2 := walkPass_reachable cfg obs
    (passCoords cfg (alignAxis obs.1 (cfg.chunkSize : Int))
                    (alignAxis obs.2 (cfg.chunkSize : Int))) q
  have h3 : Step cfg obs
      ⟨[], q ++ passCoords cfg (alignAxis obs.1 (cfg.chunkSize : Int))
                               (alignAxis obs.2 (cfg.chunkSize : Int)), .inPass []⟩
      ⟨[], q ++ passCoords cfg (alignAxis obs.1 (cfg.chunkSize : Int))
                               (alignAxis obs.2 (cfg.chunkSize : Int)), .atLoopTop⟩ :=
    ⟨.passEnd, by simp [runAct]⟩
  exact Relation.ReflTransGen.head h1 (h2.trans (Relation.ReflTransGen.single h3))

/-- Iterating worker passes while the render thread never drains: the queue
accumulates one full pass per iteration, with duplicates across passes. -/
theorem manyPasses_reachable (cfg : Config) (obs : Coord) :
    ∀ (n : Nat) (q : List Coord),
      Reachable cfg obs ⟨[], q, .atLoopTop⟩
        ⟨[], q ++ (List.replicate n (passCoords cfg
            (alignAxis obs.1 (cfg.chunkSize : Int))
            (alignAxis obs.2 (cfg.chunkSize : Int)))).flatten, .atLoopTop⟩ := by
  intro n
  induction n with
  | zero =>
    intro q
    simpa using Relation.ReflTransGen.refl
  | succ n ih =>
    intro q
    have h1 := onePass_reachable cfg obs q
    have h2 := ih (q ++ passCoords cfg (alignAxis obs.1 (cfg.chunkSize : Int))
                                       (alignAxis obs.2 (cfg.chunkSize : Int)))
    rw [List.replicate_succ, List.flatten_cons, ← List.append_assoc]
    exact h1.trans h2

/-- Frame ticks can drain the whole queue into the registry. -/
theorem drainAll_reachable (cfg : Config) (obs : Coord) :
    ∀ (q reg : List Coord) (w : WorkerPC),
      Reachable cfg obs ⟨reg, q, w⟩ ⟨reg ++ q, [], w⟩ := by
  intro q
  induction q with
  | nil =>
    intro reg w
    rw [List.append_nil]
    exact Relation.ReflTransGen.refl
  | cons c rest ih =>
    intro reg w
    have h1 : Step cfg obs ⟨reg, c :: rest, w⟩ ⟨reg ++ [c], rest, w⟩ :=
      ⟨.drain, by simp [runAct]⟩
    have h2 := ih (reg ++ [c]) w
    rw [show reg ++ (c :: rest) = (reg ++ [c]) ++ rest by simp]
    exact Relation.ReflTransGen.head h1 h2

/-- Once the worker has returned, no action restarts it, the queue never
grows, and payloads only move from the queue to the registry. -/
theorem stopped_step (cfg : Config) (obs : Coord) (s v : WState)
    (hs : s.worker = .stopped) (h : Step cfg obs s v) :
    v.worker = .stopped ∧ v.queue.length ≤ s.queue.length ∧
      v.registry.length + v.queue.length = s.registry.length + s.queue.length := by
  obtain ⟨reg, q, w⟩ := s
  cases hs
  obtain ⟨a, ha⟩ := h
  cases a
  · simp [runAct] at ha
  · simp [runAct] at ha
  · simp [runAct] at ha
  · cases q with
    | nil =>
      simp [runAct] at ha
      cases ha
      simp
    | cons c rest =>
      simp [runAct] at ha
      cases ha
      simp
      omega

/-! ### Claim C1 -/

/-- An interleaving in which the render thread drains nothing until both
worker passes have finished: the second pass rebuilds every coordinate of
the first, because `World::generateChunk` deduplicates only against
`World::chunks`, which is still empty. -/
def actsTwoPasses : List Act :=
  [.passStart, .buildNext, .buildNext, .buildNext, .buildNext, .passEnd,
   .passStart, .buildNext, .buildNext, .buildNext, .buildNext, .passEnd,
   .drain, .drain, .drain, .drain, .drain, .drain, .drain, .drain]

/-- C1 counterexample: there is an interleaving of worker iterations and
frame ticks under which `World::generateChunk` performs the full build of
the coordinate `(0, 0)` twice (its payload from the first pass is still
queued during the second pass), and the registry `World::chunks` ends up
holding two chunks with the same `(x, z)`. -/
theorem claim_C1_counterexample :
    ∃ s : WState, Reachable cfgA (0, 0) initState s ∧
      s.registry.count ((0 : Int), (0 : Int)) = 2 ∧ ¬ s.registry.Nodup := by
  refine ⟨⟨[(-16, -16), (-16, 0), (0, -16), (0, 0),
            (-16, -16), (-16, 0), (0, -16), (0, 0)], [], .atLoopTop⟩,
    ?_, by decide, by decide⟩
  exact runActs_reachable cfgA (0, 0) actsTwoPasses initState _ (by decide)

/-- C1 (amended): `World::generateChunk` skips any coordinate already in
the registry, so in every interleaving in which each payload is drained
into `World::chunks` before the next build request — the sequential
composition `buildAllDrained` — no coordinate is built twice and the
registry's coordinates stay pairwise distinct. -/
theorem claim_C1_theorem :
    ∀ (l reg : List Coord), reg.Nodup → (buildAllDrained reg l).Nodup := by
  intro l
  induction l with
  | nil =>
    intro reg h
    simpa [buildAllDrained] using h
  | cons c rest ih =>
    intro reg h
    simp only [buildAllDrained, List.foldl_cons]
    apply ih
    unfold generateChunkDrained
    split
    · exact h
    · rename_i hc
      simp [List.nodup_append, h, hc]

/-- Witness for C1: the immediate-drain run of a list with a repeated
coordinate leaves the registry duplicate-free. -/
theorem claim_C1_witness :
    (buildAllDrained [] [((0 : Int), (0 : Int)), (0, 0), (16, 0)]).Nodup :=
  claim_C1_theorem [((0 : Int), (0 : Int)), (0, 0), (16, 0)] [] (by decide)

/-! ### Claim C2 -/

/-- C2 counterexample: the ceiling check at the top of the worker loop only
sees chunks the render thread has already drained, and only fires strictly
above the ceiling, so a run exists in which `World::chunks` grows to more
than 1000 chunks (the worker loops, the render thread drains afterwards). -/
theorem claim_C2_counterexample :
    ∃ s : WState, Reachable cfgA (0, 0) initState s ∧ 1000 < s.registry.length := by
  refine ⟨⟨(List.replicate 251 (passCoords cfgA
      (alignAxis 0 (16 : Int)) (alignAxis 0 (16 : Int)))).flatten, [], .atLoopTop⟩, ?_, ?_⟩
  · have h1 := manyPasses_reachable cfgA (0, 0) 251 []
    have h2 := drainAll_reachable cfgA (0, 0)
      ((List.replicate 251 (passCoords cfgA
        (alignAxis 0 (16 : Int)) (alignAxis 0 (16 : Int)))).flatten) [] .atLoopTop
    simp only [List.nil_append] at h1 h2
    exact Relation.ReflTransGen.trans (by simpa [initState] using h1) h2
  · have hp : (passCoords cfgA (alignAxis 0 (16 : Int)) (alignAxis 0 (16 : Int))).length = 4 := by
      decide
    simp [List.length_flatten, List.map_replicate, List.sum_replicate, hp]

/-- C2 (amended): the worker returns permanently at the top of its loop as
soon as it observes strictly more than `ceiling` drained chunks, and from a
returned worker no action produces a payload: the queue never grows and
chunks only move from the queue into the registry. -/
theorem claim_C2_theorem (cfg : Config) (obs : Coord) :
    (∀ t : WState, t.worker = .atLoopTop → cfg.ceiling < t.registry.length →
        runAct cfg obs .passStart t = some { t with worker := .stopped }) ∧
    (∀ s v : WState, s.worker = .stopped → Reachable cfg obs s v →
        v.worker = .stopped ∧ v.queue.length ≤ s.queue.length ∧
          v.registry.length + v.queue.length = s.registry.length + s.queue.length) := by
  constructor
  · intro t ht hlt
    obtain ⟨reg, q, w⟩ := t
    cases ht
    simp [runAct, hlt]
  · intro s v hs hr
    induction hr with
    | refl => exact ⟨hs, le_refl _, rfl⟩
    | tail _ hstep ih =>
      obtain ⟨ih1, ih2, ih3⟩ := ih
      obtain ⟨h1, h2, h3⟩ := stopped_step cfg obs _ _ ih1 hstep
      exact ⟨h1, h2.trans ih2, by omega⟩

/-- Witness for C2: a worker at the top of its loop seeing 1001 drained
chunks with ceiling 1000 returns at once, and a returned worker stays
returned across a frame tick. -/
theorem claim_C2_witness :
    runAct cfgA (0, 0) .passStart
        ⟨List.replicate 1001 ((0 : Int), (0 : Int)), [], .atLoopTop⟩
      = some ⟨List.replicate 1001 ((0 : Int), (0 : Int)), [], .stopped⟩ ∧
    (⟨[((0 : Int), (0 : Int))], [], .stopped⟩ : WState).worker = .stopped := by
  constructor
  · exact (claim_C2_theorem cfgA (0, 0)).1
      ⟨List.replicate 1001 ((0 : Int), (0 : Int)), [], .atLoopTop⟩ rfl
      (by simp [cfgA])
  · exact ((claim_C2_theorem cfgA (0, 0)).2
      ⟨[((0 : Int), (0 : Int))], [], .stopped⟩
      ⟨[((0 : Int), (0 : Int))], [], .stopped⟩ rfl Relation.ReflTransGen.refl).1

/-! ### Claim C3 -/

/-- The coordinates actually produced in the spec's radius-1 scenario. -/
def regScenario : List Coord := [(-16, -16), (-16, 0), (0, -16), (0, 0)]

/-- One full worker pass with every payload drained afterwards. -/
def actsOnePassDrained : List Act :=
  [.passStart, .buildNext, .buildNext, .buildNext, .buildNext, .passEnd,
   .drain, .drain, .drain, .drain]

/-- C3 counterexample: in the scenario `CHUNK_SIZE = 16`, radius 1,
ceiling 9, observation point at the origin, generation settles on exactly
4 chunks at `{-16, 0} × {-16, 0}` — not 9 — because the loop bounds are the
half-open range `[-radius, radius)`; the coordinate `(16, 16)` is never
generated, re-running the full cycle changes nothing, and the worker is not
stopped (4 chunks never exceed the ceiling 9). -/
theorem claim_C3_counterexample :
    runActs cfgB (0, 0) actsOnePassDrained initState
        = some ⟨regScenario, [], .atLoopTop⟩ ∧
    Reachable cfgB (0, 0) initState ⟨regScenario, [], .atLoopTop⟩ ∧
    regScenario.length = 4 ∧
    (((16 : Int), (16 : Int)) ∉ regScenario) ∧
    runActs cfgB (0, 0) actsOnePassDrained ⟨regScenario, [], .atLoopTop⟩
        = some ⟨regScenario, [], .atLoopTop⟩ ∧
    (⟨regScenario, [], .atLoopTop⟩ : WState).worker ≠ .stopped := by
  refine ⟨by decide, ?_, by decide, by decide, by decide, by decide⟩
  exact runActs_reachable cfgB (0, 0) actsOnePassDrained initState _ (by decide)

/-- C3 (amended): with radius 1 and center at the origin the worker
enumerates, in row-major order with the outer loop on the x offset and the
offsets drawn from the half-open range `[-radius, radius)`, exactly the four
coordinates `{-16, 0} × {-16, 0}`; after one drained pass these four chunks
are the whole registry, a further pass rebuilds nothing, and the worker
re-enters its loop instead of stopping because 4 does not exceed the
ceiling 9. -/
theorem claim_C3_theorem :
    passCoords cfgB 0 0 = regScenario ∧
    runActs cfgB (0, 0) actsOnePassDrained initState
        = some ⟨regScenario, [], .atLoopTop⟩ ∧
    buildAllDrained regScenario regScenario = regScenario ∧
    runAct cfgB (0, 0) .passStart ⟨regScenario, [], .atLoopTop⟩
        = some ⟨regScenario, [], .inPass regScenario⟩ := by
  refine ⟨by decide, by decide, by decide, by decide⟩

/-! ### Claim C4 -/

/-- A fold that appends one contribution per element to each component of a
pair accumulator is the pair of flat-mapped contributions. -/
theorem foldl_pair_append {α β γ : Type} (f : α → List β) (g : α → List γ) :
    ∀ (l : List α) (p : List β × List γ),
      l.foldl (fun acc a => (acc.1 ++ f a, acc.2 ++ g a)) p
        = (p.1 ++ l.flatMap f, p.2 ++ l.flatMap g) := by
  intro l
  induction l with
  | nil => intro p; simp
  | cons a rest ih =>
    intro p
    simp only [List.foldl_cons]
    rw [ih (p.1 ++ f a, p.2 ++ g a)]
    simp

/-- Flat-mapping the empty contribution gives the empty list. -/
theorem flatMap_const_nil {α β : Type} :
    ∀ l : List α, (l.flatMap fun _ => ([] : List β)) = [] := by
  intro l
  induction l with
  | nil => simp
  | cons a rest ih => simp [ih]

/-- A guarded flat map over `range (cs + 1)` drops its unguarded last
element. -/
theorem range_succ_guard {β : Type} (cs : Nat) (G : Nat → List β) :
    (List.range (cs + 1)).flatMap (fun i => if i < cs then G i else [])
      = (List.range cs).flatMap G := by
  have h1 : (List.range cs).flatMap (fun i => if i < cs then G i else [])
      = (List.range cs).flatMap G :=
    List.flatMap_congr (fun i hi => by simp [List.mem_range.mp hi])
  rw [List.range_succ, List.flatMap_append, h1, List.flatMap_singleton]
  simp

/-- Dropping the guarded last column of the inner loop. -/
theorem inner_guard_eq {β : Type} (cs i : Nat) (hi : i < cs) (F : Nat → List β) :
    (List.range (cs + 1)).flatMap (fun j => if i < cs ∧ j < cs then F j else [])
      = (List.range cs).flatMap F := by
  rw [show (fun j => if i < cs ∧ j < cs then F j else [])
      = (fun j => if j < cs then F j else []) from funext (fun j => by simp [hi])]
  exact range_succ_guard cs F

/-- Dropping the guarded last row and column of the double loop. -/
theorem double_guard_eq {β : Type} (cs : Nat) (F : Nat → Nat → List β) :
    (List.range (cs + 1)).flatMap (fun i => (List.range (cs + 1)).flatMap (fun j =>
        if i < cs ∧ j < cs then F i j else []))
      = (List.range cs).flatMap (fun i => (List.range cs).flatMap (F i)) := by
  have h2 : ∀ i ∈ List.range (cs + 1),
      ((List.range (cs + 1)).flatMap fun j => if i < cs ∧ j < cs then F i j else [])
        = if i < cs then (List.range cs).flatMap (F i) else [] := by
    intro i _
    by_cases hi : i < cs
    · rw [inner_guard_eq cs i hi (F i), if_pos hi]
    · rw [if_neg hi, show (fun j => if i < cs ∧ j < cs then F i j else [])
          = (fun _ => ([] : List β)) from funext (fun j => by simp [hi])]
      exact flatMap_const_nil _
  rw [List.flatMap_congr h2]
  exact range_succ_guard cs _

/-- Flat-mapping singletons is mapping. -/
theorem flatMap_singleton_map {α β : Type} (g : α → β) :
    ∀ l : List α, (l.flatMap fun a => [g a]) = l.map g := by
  intro l
  induction l with
  | nil => simp
  | cons a rest ih => simp [ih]

/-- The interleaved double loop of `World::generateChunk` produces exactly
the row-major core-grid height list and the row-major two-triangles-per-cell
index sequence. -/
theorem generateChunkArrays_eq (cfg : Config) (noise : ℚ → ℚ → ℚ) (x z : Int) :
    generateChunkArrays cfg noise x z
      = (coreHeights cfg noise x z, specWindingIndices cfg.chunkSize) := by
  unfold generateChunkArrays
  have hinner : ∀ i : Nat,
      (fun (acc2 : List ℚ × List Nat) (j : Nat) =>
        if i < cfg.chunkSize ∧ j < cfg.chunkSize then
          (acc2.1 ++ [hSample cfg noise x z i j], acc2.2 ++ cellIndices cfg.chunkSize i j)
        else acc2)
      = (fun (acc2 : List ℚ × List Nat) (j : Nat) =>
          (acc2.1 ++ (if i < cfg.chunkSize ∧ j < cfg.chunkSize
                        then [hSample cfg noise x z i j] else []),
           acc2.2 ++ (if i < cfg.chunkSize ∧ j < cfg.chunkSize
                        then cellIndices cfg.chunkSize i j else []))) := by
    intro i
    funext acc2 j
    by_cases hc : i < cfg.chunkSize ∧ j < cfg.chunkSize
    · simp [hc]
    · simp [hc]
  have houter : (fun (acc : List ℚ × List Nat) (i : Nat) =>
      (List.range (cfg.chunkSize + 1)).foldl (fun acc2 j =>
        if i < cfg.chunkSize ∧ j < cfg.chunkSize then
          (acc2.1 ++ [hSample cfg noise x z i j], acc2.2 ++ cellIndices cfg.chunkSize i j)
        else acc2) acc)
      = (fun acc i =>
          (acc.1 ++ (List.range (cfg.chunkSize + 1)).flatMap (fun j =>
              if i < cfg.chunkSize ∧ j < cfg.chunkSize
                then [hSample cfg noise x z i j] else []),
           acc.2 ++ (List.range (cfg.chunkSize + 1)).flatMap (fun j =>
              if i < cfg.chunkSize ∧ j < cfg.chunkSize
                then cellIndices cfg.chunkSize i j else []))) := by
    funext acc i
    rw [hinner i]
    exact foldl_pair_append _ _ _ _
  rw [houter, foldl_pair_append]
  simp only [List.nil_append]
  refine Prod.ext ?_ ?_
  · rw [double_guard_eq cfg.chunkSize (fun i j => [hSample cfg noise x z i j])]
    unfold coreHeights
    exact List.flatMap_congr (fun i _ => flatMap_singleton_map _ _)
  · rw [double_guard_eq cfg.chunkSize (fun i j => cellIndices cfg.chunkSize i j)]
    rfl

/-- Length of the core-grid height list. -/
theorem length_coreHeights (cfg : Config) (noise : ℚ → ℚ → ℚ) (x z : Int) :
    (coreHeights cfg noise x z).length = cfg.chunkSize * cfg.chunkSize := by
  unfold coreHeights
  rw [List.length_flatMap,
    show (List.length ∘ fun i => (List.range cfg.chunkSize).map
        fun j => hSample cfg noise x z i j)
      = fun i : Nat => cfg.chunkSize from funext (fun i => by simp)]
  simp [List.map_const', List.sum_replicate]

/-- Length of the index sequence. -/
theorem length_specWinding (cs : Nat) :
    (specWindingIndices cs).length = cs * cs * 6 := by
  unfold specWindingIndices
  rw [List.length_flatMap]
  have h1 : ∀ i : Nat, ((List.range cs).flatMap fun j => cellIndices cs i j).length
      = cs * 6 := by
    intro i
    rw [List.length_flatMap,
      show (List.length ∘ fun j => cellIndices cs i j) = fun j : Nat => 6
        from funext (fun j => rfl)]
    simp [List.map_const', List.sum_replicate]
  rw [show (List.length ∘ fun i => (List.range cs).flatMap fun j => cellIndices cs i j)
      = fun i : Nat => cs * 6 from funext (fun i => h1 i)]
  simp [List.map_const', List.sum_replicate]
  ring

/-- Every index emitted for an interior cell addresses a vertex of the
`(CHUNK_SIZE+1) × (CHUNK_SIZE+1)` grid. -/
theorem cellIndices_lt (cs i j : Nat) (hi : i < cs) (hj : j < cs) :
    ∀ k ∈ cellIndices cs i j, k < (cs + 1) * (cs + 1) := by
  have key : ∀ a b : Nat, a ≤ cs → b ≤ cs → a * (cs + 1) + b < (cs + 1) * (cs + 1) := by
    intro a b ha hb
    calc a * (cs + 1) + b ≤ cs * (cs + 1) + cs :=
          Nat.add_le_add (Nat.mul_le_mul_right _ ha) hb
      _ < cs * (cs + 1) + (cs + 1) := Nat.add_lt_add_left (Nat.lt_succ_self cs) _
      _ = (cs + 1) * (cs + 1) := by ring
  intro k hk
  simp only [cellIndices, List.mem_cons, List.not_mem_nil, or_false] at hk
  rcases hk with h | h | h | h | h | h <;> subst h
  · exact key i j hi.le hj.le
  · exact key i (j + 1) hi.le hj
  · exact key (i + 1) j hi hj.le
  · exact key i (j + 1) hi.le hj
  · exact key (i + 1) (j + 1) hi hj
  · exact key (i + 1) j hi hj.le

/-- C4: for every chunk coordinate, the payload built by
`World::generateChunk` has exactly `CHUNK_SIZE²` core-grid height samples
and exactly `CHUNK_SIZE² × 6` triangle indices, every index addresses the
`(CHUNK_SIZE+1)²` vertex grid, and the index sequence is exactly the
row-major two-triangles-per-cell winding (top-left/top-right/bottom-left,
then top-right/bottom-right/bottom-left) with row width `CHUNK_SIZE + 1`. -/
theorem claim_C4_theorem (cfg : Config) (noise : ℚ → ℚ → ℚ) (x z : Int) :
    (generateChunkArrays cfg noise x z).1.length = cfg.chunkSize * cfg.chunkSize ∧
    (generateChunkArrays cfg noise x z).2.length = cfg.chunkSize * cfg.chunkSize * 6 ∧
    (∀ k ∈ (generateChunkArrays cfg noise x z).2,
        k < (cfg.chunkSize + 1) * (cfg.chunkSize + 1)) ∧
    (generateChunkArrays cfg noise x z).2 = specWindingIndices cfg.chunkSize := by
  rw [generateChunkArrays_eq]
  refine ⟨length_coreHeights cfg noise x z, length_specWinding cfg.chunkSize, ?_, rfl⟩
  intro k hk
  simp only [specWindingIndices, List.mem_flatMap, List.mem_range] at hk
  obtain ⟨i, hi, j, hj, hk⟩ := hk
  exact cellIndices_lt cfg.chunkSize i j hi hj k hk

/-- A one-cell configuration used to evaluate the mesh claims concretely. -/
def cfgUnit : Config :=
  { chunkSize := 1, radius := 1, ceiling := 1000, biomeCount := 2
  , biomeFactors := [1, 2], octaves := [(50, 1)], maxHeight := 10, delta := 1 }

/-- Witness for C4: with `CHUNK_SIZE = 1`, the index 3 that the build emits
is below the vertex-grid bound 4, and the emitted index sequence is the
spec winding. -/
theorem claim_C4_witness :
    (3 : Nat) < (cfgUnit.chunkSize + 1) * (cfgUnit.chunkSize + 1) ∧
    (generateChunkArrays cfgUnit (fun _ _ => 0) 0 0).2 = specWindingIndices 1 := by
  constructor
  · exact (claim_C4_theorem cfgUnit (fun _ _ => 0) 0 0).2.2.1 3 (by decide)
  · have h := (claim_C4_theorem cfgUnit (fun _ _ => 0) 0 0).2.2.2
    simpa [cfgUnit] using h

/-! ### Claim C5 -/

/-- A running-sum fold is the sum of the mapped list. -/
theorem foldl_add_map_sum {α : Type} (f : α → ℚ) :
    ∀ (l : List α) (a : ℚ), l.foldl (fun acc o => acc + f o) a = a + (l.map f).sum := by
  intro l
  induction l with
  | nil => intro a; simp
  | cons o rest ih =>
    intro a
    simp only [List.foldl_cons, List.map_cons, List.sum_cons]
    rw [ih]
    ring

/-- C5 counterexample: with the scenario configuration (biome table
`[1, 2]`, two bands, single octave of wavelength 50 and amplitude 1,
maximum height 10) and the constant noise `1/2`, the code computes
`2 · (3/4) · (1/2 · 10) = 15/2`, while the claim's formula — the octave sum
times the selected band constant times the maximum height, with no extra
factor — yields `2 · (1/2 · 10) = 10`. -/
theorem claim_C5_counterexample :
    getChunkHeight cfgA (fun _ _ => 1/2) 0 0 = 15 / 2 ∧
    claimHeightC5 cfgA (fun _ _ => 1/2) 0 0 = 10 ∧
    getChunkHeight cfgA (fun _ _ => 1/2) 0 0
      ≠ claimHeightC5 cfgA (fun _ _ => 1/2) 0 0 := by
  have h1 : getChunkHeight cfgA (fun _ _ => 1/2) 0 0 = 15 / 2 := by
    norm_num [getChunkHeight, getBiomeNoise, cTrunc, cfgA, Int.floor_eq_iff]
  have h2 : claimHeightC5 cfgA (fun _ _ => 1/2) 0 0 = 10 := by
    norm_num [claimHeightC5, getBiomeNoise, cTrunc, cfgA, Int.floor_eq_iff]
  refine ⟨h1, h2, ?_⟩
  rw [h1, h2]
  norm_num

/-- C5 (amended): the height equals the octave sum (each octave sampled at
the pre-scaled coordinate over its wavelength and scaled by its amplitude)
times the maximum-height constant, times the selected per-band scaling
constant, times — additionally — the biome noise value itself, which the
source multiplies into the band factor at `World.cpp` line 102. -/
theorem claim_C5_theorem (cfg : Config) (noise : ℚ → ℚ → ℚ) (x z : ℚ) :
    getChunkHeight cfg noise x z =
      cfg.biomeFactors.getD (biomeIndex cfg noise (x / 10) (z / 10)).toNat 0
        * getBiomeNoise noise (x / 10) (z / 10)
        * ((cfg.octaves.map (fun o => noise (x / 10 / o.1) (z / 10 / o.1) * o.2)).sum
            * cfg.maxHeight) := by
  simp only [getChunkHeight, biomeIndex]
  rw [foldl_add_map_sum]
  ring

/-! ### Claim C6 -/

/-- Normalizing any vector with a non-zero middle component yields a unit
vector. -/
theorem normalize3_unit (v : ℚ × ℚ × ℚ) (h : v.2.1 ≠ 0) :
    vecNorm (normalize3 v) = 1 := by
  obtain ⟨a, b, c⟩ := v
  have hb : ((b : ℚ) : ℝ) ≠ 0 := by exact_mod_cast h
  simp only [normalize3, toRealVec, vecNorm]
  have hb2 : (0 : ℝ) < (b : ℝ) ^ 2 :=
    lt_of_le_of_ne (sq_nonneg _) (Ne.symm (pow_ne_zero 2 hb))
  have ha2 := sq_nonneg ((a : ℚ) : ℝ)
  have hc2 := sq_nonneg ((c : ℚ) : ℝ)
  have hS0 : (0 : ℝ) < (a : ℝ) ^ 2 + (b : ℝ) ^ 2 + (c : ℝ) ^ 2 := by linarith
  have hn2 : Real.sqrt ((a : ℝ) ^ 2 + (b : ℝ) ^ 2 + (c : ℝ) ^ 2) ^ 2
      = (a : ℝ) ^ 2 + (b : ℝ) ^ 2 + (c : ℝ) ^ 2 := Real.sq_sqrt hS0.le
  have heq : ((a : ℝ) / Real.sqrt ((a : ℝ) ^ 2 + (b : ℝ) ^ 2 + (c : ℝ) ^ 2)) ^ 2
        + ((b : ℝ) / Real.sqrt ((a : ℝ) ^ 2 + (b : ℝ) ^ 2 + (c : ℝ) ^ 2)) ^ 2
        + ((c : ℝ) / Real.sqrt ((a : ℝ) ^ 2 + (b : ℝ) ^ 2 + (c : ℝ) ^ 2)) ^ 2
      = ((a : ℝ) ^ 2 + (b : ℝ) ^ 2 + (c : ℝ) ^ 2)
        / Real.sqrt ((a : ℝ) ^ 2 + (b : ℝ) ^ 2 + (c : ℝ) ^ 2) ^ 2 := by
    rw [div_pow, div_pow, div_pow, div_add_div_same, div_add_div_same]
  rw [heq, hn2, div_self hS0.ne', Real.sqrt_one]

/-- C6: the normal is exactly the normalization of the symmetric
finite-difference vector `(h(x-δ,z) - h(x+δ,z), 2δ, h(x,z-δ) - h(x,z+δ))`,
and (for the positive configured δ) it is a unit vector at every sample
point, in particular at the origin. -/
theorem claim_C6_theorem (cfg : Config) (noise : ℚ → ℚ → ℚ) (x z : ℚ)
    (hd : 0 < cfg.delta) :
    getNormalVector cfg noise x z =
      normalize3
        (getChunkHeight cfg noise (x - cfg.delta) z
           - getChunkHeight cfg noise (x + cfg.delta) z,
         2 * cfg.delta,
         getChunkHeight cfg noise x (z - cfg.delta)
           - getChunkHeight cfg noise x (z + cfg.delta)) ∧
    vecNorm (getNormalVector cfg noise x z) = 1 := by
  refine ⟨rfl, ?_⟩
  show vecNorm (normalize3 (normalRaw cfg noise x z)) = 1
  apply normalize3_unit
  show (2 : ℚ) * cfg.delta ≠ 0
  exact mul_ne_zero two_ne_zero hd.ne'

/-- Witness for C6: the normal at the origin under the scenario
configuration (δ = 1) has unit length. -/
theorem claim_C6_witness :
    vecNorm (getNormalVector cfgA (fun _ _ => 0) 0 0) = 1 :=
  (claim_C6_theorem cfgA (fun _ _ => 0) 0 0 (by norm_num [cfgA])).2

/-! ### Claim C7 -/

/-- C7 counterexample: the aligned center of the x coordinate `-5` with
`CHUNK_SIZE = 16` is `0`, which is not below `-5` at all — the greatest
multiple of 16 not exceeding `-5` is `-16`.  C++ division truncates toward
zero instead of flooring. -/
theorem claim_C7_counterexample :
    alignAxis (-5) 16 = 0 ∧ ¬ alignAxis (-5) 16 ≤ (-5 : Int) ∧
      alignAxis (-5) 16 ≠ -16 := by decide

/-- For non-negative coordinates, truncating alignment is the greatest
multiple of the chunk size not exceeding the coordinate. -/
theorem alignAxis_nonneg_greatest (p cs : Int) (hp : 0 ≤ p) (hcs : 0 < cs) :
    alignAxis p cs ≤ p ∧ ∀ m : Int, cs ∣ m → m ≤ p → m ≤ alignAxis p cs := by
  unfold alignAxis
  rw [Int.tdiv_eq_ediv hp hcs.le]
  constructor
  · exact Int.ediv_mul_le p hcs.ne'
  · intro m hdvd hmp
    obtain ⟨k, rfl⟩ := hdvd
    have hk : k ≤ p / cs := (Int.le_ediv_iff_mul_le hcs).mpr (by linarith [mul_comm cs k])
    calc cs * k = k * cs := mul_comm cs k
      _ ≤ p / cs * cs := mul_le_mul_of_nonneg_right hk hcs.le

/-- C7 (amended): the aligned center is the multiple of `CHUNK_SIZE`
obtained by truncating the quotient toward zero: for a non-negative
coordinate it is the greatest multiple not exceeding it, but for a negative
coordinate it is the least multiple that is at least the coordinate —
rounding toward zero, not flooring. -/
theorem claim_C7_theorem (p cs : Int) (hcs : 0 < cs) :
    cs ∣ alignAxis p cs ∧
    (0 ≤ p → alignAxis p cs ≤ p ∧
        ∀ m : Int, cs ∣ m → m ≤ p → m ≤ alignAxis p cs) ∧
    (p < 0 → p ≤ alignAxis p cs ∧
        ∀ m : Int, cs ∣ m → p ≤ m → alignAxis p cs ≤ m) := by
  have hneg : alignAxis (-p) cs = - alignAxis p cs := by
    simp [alignAxis, Int.neg_tdiv, neg_mul]
  refine ⟨dvd_mul_left cs (p.tdiv cs), ?_, ?_⟩
  · intro hp
    exact alignAxis_nonneg_greatest p cs hp hcs
  · intro hp
    have h := alignAxis_nonneg_greatest (-p) cs (by omega) hcs
    constructor
    · have h1 := h.1
      rw [hneg] at h1
      linarith
    · intro m hdvd hpm
      have h2 := h.2 (-m) (dvd_neg.mpr hdvd) (by omega)
      rw [hneg] at h2
      linarith

/-- Witness for C7: at coordinate `-5` with chunk size 16 the aligned value
is a multiple of 16 that is at least `-5`. -/
theorem claim_C7_witness :
    ((-5 : Int) ≤ alignAxis (-5) 16) ∧ (16 : Int) ∣ alignAxis (-5) 16 := by
  constructor
  · exact ((claim_C7_theorem (-5) 16 (by decide)).2.2 (by decide)).1
  · exact (claim_C7_theorem (-5) 16 (by decide)).1

/-! ### Claim C8 -/

/-- C8 counterexample: a null observation point does produce the diagnostic
and prevents the generation loop, but `World::startWorldGeneration` is not
a no-op on the `World`: it still clears `drawables` and `worldObjects` and
records the spawned thread, so the observable state changes. -/
theorem claim_C8_counterexample :
    startWorldGeneration ⟨false, 2, 3, 0, 0⟩ ≠ ⟨false, 2, 3, 0, 0⟩ ∧
    (worldGenerationEntry false 3).1 = true ∧
    (worldGenerationEntry false 3).2 = false := by
  refine ⟨by decide, rfl, rfl⟩

/-- C8 (amended): with a null observation point the worker prints the
diagnostic and never enters the generation loop, so no chunk is ever
generated and the registry and queue are untouched; but the start call
itself still resets `drawables` and `worldObjects` and records the thread
handle whenever no thread was running. -/
theorem claim_C8_theorem (s : WorldFields) (n : Nat) :
    worldGenerationEntry false n = (true, false) ∧
    (startWorldGeneration s).chunksLen = s.chunksLen ∧
    (startWorldGeneration s).queueLen = s.queueLen ∧
    (s.threadStarted = false →
      startWorldGeneration s
        = { s with drawablesLen := 0, worldObjectsLen := 0, threadStarted := true }) := by
  refine ⟨rfl, ?_, ?_, ?_⟩
  · unfold startWorldGeneration
    split <;> rfl
  · unfold startWorldGeneration
    split <;> rfl
  · intro h
    simp [startWorldGeneration, h]

/-- Witness for C8: starting generation on an idle `World` resets the
collections and records the thread, leaving chunk and queue counts as they
were. -/
theorem claim_C8_witness :
    startWorldGeneration ⟨false, 1, 2, 4, 5⟩
      = { (⟨false, 1, 2, 4, 5⟩ : WorldFields) with
          drawablesLen := 0, worldObjectsLen := 0, threadStarted := true } :=
  (claim_C8_theorem ⟨false, 1, 2, 4, 5⟩ 0).2.2.2 rfl

/-! ### Claim C9 -/

/-- C9: evaluating the destructor on a `World` whose generation worker is
running: the queued payloads and the chunk resources are freed as the claim
states, but the worker thread is detached — never joined, and no
cooperative stop flag exists — so the detached worker can still touch the
freed memory.  This contradicts both the claim and the source's own comment
"Stop the world generation thread" above the `detach()` call. -/
theorem claim_C9_theorem :
    (worldDtor ⟨true, 0, 0, 3, 2⟩).teardown = ThreadTeardown.detached ∧
    (worldDtor ⟨true, 0, 0, 3, 2⟩).teardown ≠ ThreadTeardown.joined ∧
    (worldDtor ⟨true, 0, 0, 3, 2⟩).freedQueuePayloads = 2 ∧
    (worldDtor ⟨true, 0, 0, 3, 2⟩).freedChunkResources = 3 := by decide

/-! ### Claim C10 -/

/-- C10: whenever the raw noise lies in `[-1, 1]`, `getBiomeNoise` lies in
`[0, 1]`; for a biome noise value strictly below 1 the table index
`(int)(biome_noise * CHUNK_BIOME_COUNT)` lies in `[0, CHUNK_BIOME_COUNT)`,
and when the biome noise value is exactly 1 the index equals
`CHUNK_BIOME_COUNT`, one past the last valid table slot — so in-bounds
access relies on the biome noise never attaining 1. -/
theorem claim_C10_theorem (cfg : Config) (noise : ℚ → ℚ → ℚ) (x z : ℚ)
    (hN : 0 < cfg.biomeCount) :
    ((-1 ≤ noise (x / 100) (z / 100) ∧ noise (x / 100) (z / 100) ≤ 1) →
        0 ≤ getBiomeNoise noise x z ∧ getBiomeNoise noise x z ≤ 1) ∧
    (0 ≤ getBiomeNoise noise x z → getBiomeNoise noise x z < 1 →
        0 ≤ biomeIndex cfg noise x z ∧
          biomeIndex cfg noise x z < (cfg.biomeCount : Int)) ∧
    (getBiomeNoise noise x z = 1 →
        biomeIndex cfg noise x z = (cfg.biomeCount : Int)) := by
  refine ⟨?_, ?_, ?_⟩
  · intro h
    obtain ⟨h1, h2⟩ := h
    unfold getBiomeNoise
    constructor <;> linarith
  · intro hb0 hb1
    unfold biomeIndex cTrunc
    have hbn : 0 ≤ getBiomeNoise noise x z * (cfg.biomeCount : ℚ) :=
      mul_nonneg hb0 (by positivity)
    rw [if_pos hbn]
    refine ⟨Int.floor_nonneg.mpr hbn, ?_⟩
    rw [Int.floor_lt]
    have hN' : (0 : ℚ) < (cfg.biomeCount : ℚ) := by exact_mod_cast hN
    calc getBiomeNoise noise x z * (cfg.biomeCount : ℚ)
        < 1 * (cfg.biomeCount : ℚ) := mul_lt_mul_of_pos_right hb1 hN'
      _ = ((cfg.biomeCount : Int) : ℚ) := by push_cast; ring
  · intro h1
    unfold biomeIndex cTrunc
    rw [h1, one_mul, if_pos (by positivity)]
    exact Int.floor_natCast cfg.biomeCount

/-- Witness for C10: with two biome bands, the constant noise 1 drives the
biome noise to 1 and the index to 2 — out of bounds for the two-entry
table — while the constant noise 0 gives biome noise 1/2 and the in-bounds
index region `[0, 2)`. -/
theorem claim_C10_witness :
    biomeIndex cfgA (fun _ _ => 1) 0 0 = 2 ∧
    0 ≤ biomeIndex cfgA (fun _ _ => 0) 0 0 ∧
    biomeIndex cfgA (fun _ _ => 0) 0 0 < 2 := by
  refine ⟨?_, ?_, ?_⟩
  · have h := (claim_C10_theorem cfgA (fun _ _ => 1) 0 0 (by norm_num [cfgA])).2.2
      (by norm_num [getBiomeNoise])
    simpa [cfgA] using h
  · exact ((claim_C10_theorem cfgA (fun _ _ => 0) 0 0 (by norm_num [cfgA])).2.1
      (by norm_num [getBiomeNoise]) (by norm_num [getBiomeNoise])).1
  · have h := ((claim_C10_theorem cfgA (fun _ _ => 0) 0 0 (by norm_num [cfgA])).2.1
      (by norm_num [getBiomeNoise]) (by norm_num [getBiomeNoise])).2
    simpa [cfgA] using h

end VoxelGame
